import Mathlib

/-!
Verification development for the WeatherWise-Pro repository (src/get_data.py).

The core under study is the best-window search `find_best_dates` together
with the historical-fetch contract `get_historical_data_for_event`.

Modelling conventions:
  * calendar dates are modelled as integers (days); `date2 - date1` in the
    source (a timedelta whose `.days` field is read) becomes plain integer
    subtraction, and `date + timedelta(days=n)` becomes `date + n`;
  * the floating-point temperature / precipitation values and thresholds are
    modelled as rationals: the source only ever compares them (no arithmetic),
    so the ordering is all that matters;
  * a pandas DataFrame of daily records is a `List HistRow`, with `df.empty`
    becoming `List.isEmpty`;
  * the remote data source (NASA POWER, reached through
    `get_historical_data_for_event`) is abstracted as a function
    `fetch : latitude -> longitude -> start -> end -> List HistRow`; per the
    fetch contract it never raises, so it is a total function;
  * Python's `best_score = float('inf')` initial value is `none` in an
    `Option Nat`, and `best_start = None` is `none` in an `Option Int`;
  * the `try ... except` wrapper of `find_best_dates` (source lines 166 and
    212-214) is made explicit: the body produces an `Except String` value and
    the wrapper maps any error to the `(None, None)` outcome, i.e. `none`.
-/

/-- One row of the historical DataFrame built by
`get_historical_data_for_event` (source lines 67-71): a date string, the
daily maximum temperature and the daily precipitation sum. -/
structure HistRow where
  date : String
  temperature_2m_max : ℚ
  precipitation_sum : ℚ
deriving DecidableEq

/-- Row construction loop of `get_historical_data_for_event` (source lines
60-71): every `(date_str, temp)` entry of the T2M_MAX channel with
`temp != -999` yields one row; its precipitation is looked up in the
PRECTOTCORR channel, defaulting to `0` when the key is absent, and a `-999`
precipitation sentinel is replaced by `0`. -/
def buildSeries (temp_data precip_data : List (String × ℚ)) : List HistRow :=
  (temp_data.filter (fun p => decide (p.2 ≠ -999))).map (fun p =>
    let precip := (List.lookup p.1 precip_data).getD 0
    ⟨p.1, p.2, if precip = -999 then 0 else precip⟩)

/-- Model of `get_historical_data_for_event` (source lines 16-77). The
argument is the parsed API response: `none` stands for any transport or
parse failure (the `except` branch at lines 75-77) and also for a payload
missing the expected keys (lines 48-49) — in all of these the source
returns an empty DataFrame; `some (temp_data, precip_data)` is a successful
response with its two channels, turned into rows by `buildSeries`. -/
def get_historical_data_for_event
    (response : Option (List (String × ℚ) × List (String × ℚ))) : List HistRow :=
  match response with
  | none => []
  | some (t, p) => buildSeries t p

/-- Search-range clamp of `find_best_dates` (source lines 167-171): when the
raw span `(search_end - search_start).days` exceeds 90 the end is pulled in
to `search_start + 90`. -/
def clampEnd (search_start search_end : ℤ) : ℤ :=
  if search_end - search_start > 90 then search_start + 90 else search_end

/-- Loop bound of `find_best_dates` (source line 185): the candidate offsets
are `range(0, min((search_end - search_start).days - event_duration + 1, 50))`,
taken here with the already-clamped `search_end`. A non-positive bound gives
an empty range, hence `Int.toNat`. -/
def numCandidates (search_start search_end event_duration : ℤ) : ℕ :=
  (min (search_end - search_start - event_duration + 1) 50).toNat

/-- Risk score of one candidate window (source lines 197-200): the number of
rows whose maximum temperature strictly exceeds `hot_thresh` plus the number
of rows whose precipitation strictly exceeds `rain_thresh`. -/
def riskScore (df : List HistRow) (hot_thresh rain_thresh : ℚ) : ℕ :=
  df.countP (fun r => decide (r.temperature_2m_max > hot_thresh)) +
  df.countP (fun r => decide (r.precipitation_sum > rain_thresh))

/-- Historical series fetched for the candidate window at a given offset
(source lines 187-191): the window starts `off` days after `search_start`
and lasts `event_duration` days, ending at `candidate_start +
(event_duration - 1)`. -/
def candSeries (fetch : ℚ → ℚ → ℤ → ℤ → List HistRow) (lat lon : ℚ)
    (search_start event_duration : ℤ) (off : ℕ) : List HistRow :=
  fetch lat lon (search_start + (off : ℤ))
    (search_start + (off : ℤ) + (event_duration - 1))

/-- Risk score of the candidate at a given offset. -/
def candScore (fetch : ℚ → ℚ → ℤ → ℤ → List HistRow) (lat lon : ℚ)
    (search_start : ℤ) (hot_thresh rain_thresh : ℚ)
    (event_duration : ℤ) (off : ℕ) : ℕ :=
  riskScore (candSeries fetch lat lon search_start event_duration off)
    hot_thresh rain_thresh

/-- One iteration of the candidate loop of `find_best_dates` (source lines
185-204), acting on the running state `(best_score, best_start)`: an empty
candidate series is skipped (`continue`, line 194); otherwise the score is
computed and the best state is replaced exactly when the new score is
strictly smaller (line 202), the initial `float('inf')` best score being
the `none` case. -/
def stepCandidate (fetch : ℚ → ℚ → ℤ → ℤ → List HistRow) (lat lon : ℚ)
    (search_start : ℤ) (hot_thresh rain_thresh : ℚ) (event_duration : ℤ)
    (st : Option ℕ × Option ℤ) (start_offset : ℕ) : Option ℕ × Option ℤ :=
  if (candSeries fetch lat lon search_start event_duration start_offset).isEmpty then st
  else
    let score := riskScore
      (candSeries fetch lat lon search_start event_duration start_offset)
      hot_thresh rain_thresh
    match st.1 with
    | none => (some score, some (search_start + (start_offset : ℤ)))
    | some best_score =>
      if score < best_score then
        (some score, some (search_start + (start_offset : ℤ)))
      else st

/-- Body of `find_best_dates` (source lines 167-210), producing an
`Except` value so that the surrounding `try ... except` can be modelled
separately: clamp the range, run the feasibility fetch over the full
(clamped) range and return `(None, None)` if it is empty (lines 174-177),
otherwise fold the candidate loop over the offsets and read off the best
start (lines 206-210). No operation in this body raises, so it always
returns `Except.ok`. -/
def searchBody (fetch : ℚ → ℚ → ℤ → ℤ → List HistRow) (lat lon : ℚ)
    (search_start search_end : ℤ) (hot_thresh rain_thresh : ℚ)
    (event_duration : ℤ) : Except String (Option (ℤ × ℤ)) :=
  let se := clampEnd search_start search_end
  let hist_df := fetch lat lon search_start se
  if hist_df.isEmpty then Except.ok none
  else
    let st := (List.range (numCandidates search_start se event_duration)).foldl
      (stepCandidate fetch lat lon search_start hot_thresh rain_thresh event_duration)
      (none, none)
    match st.2 with
    | some best_start =>
        Except.ok (some (best_start, best_start + (event_duration - 1)))
    | none => Except.ok none

/-- The `try ... except` wrapper of `find_best_dates` (source lines 166 and
212-214): any exception from the body is converted into the `(None, None)`
outcome. -/
def catchToNone (r : Except String (Option (ℤ × ℤ))) : Option (ℤ × ℤ) :=
  match r with
  | Except.ok v => v
  | Except.error _ => none

/-- Model of `find_best_dates` (source lines 162-214). The result is
`some (best_start, best_end)` for a found window and `none` for the
`(None, None)` outcome. -/
def find_best_dates (fetch : ℚ → ℚ → ℤ → ℤ → List HistRow) (lat lon : ℚ)
    (search_start search_end : ℤ) (hot_thresh rain_thresh : ℚ)
    (event_duration : ℤ) : Option (ℤ × ℤ) :=
  catchToNone (searchBody fetch lat lon search_start search_end
    hot_thresh rain_thresh event_duration)

/-- Candidate windows enumerated by the loop of `find_best_dates` (source
lines 185-188), in loop order. -/
def candidateWindows (search_start search_end event_duration : ℤ) : List (ℤ × ℤ) :=
  (List.range (numCandidates search_start (clampEnd search_start search_end)
      event_duration)).map
    (fun (off : ℕ) => (search_start + (off : ℤ),
      search_start + (off : ℤ) + (event_duration - 1)))

/-- Windows requested from the data source during one call of
`find_best_dates`, in request order: the feasibility window over the full
(clamped) range (source line 174) and, unless the feasibility series was
empty (lines 176-177), one window per loop iteration (line 191). Each loop
iteration issues exactly one fetch, and the loop never exits early. -/
def fetchCalls (fetch : ℚ → ℚ → ℤ → ℤ → List HistRow) (lat lon : ℚ)
    (search_start search_end event_duration : ℤ) : List (ℤ × ℤ) :=
  let se := clampEnd search_start search_end
  if (fetch lat lon search_start se).isEmpty then [(search_start, se)]
  else (search_start, se) :: candidateWindows search_start search_end event_duration

/-- Inclusive duration in days of the (possibly clamped) search range, the
`total_search_days` of the specification: `end - start + 1`. -/
def totalSearchDays (search_start search_end : ℤ) : ℤ :=
  clampEnd search_start search_end - search_start + 1

/-- Modelled from the spec: the candidate count formula of specification
section 4.2 step 3, `max_offset = min(total_search_days - event_duration_days
+ 1, 50)`. Stated separately from the source-derived `numCandidates` so that
the two can be compared. -/
def specMaxOffset (search_start search_end event_duration : ℤ) : ℤ :=
  min (totalSearchDays search_start search_end - event_duration + 1) 50

/-- Data source stub that always answers with the same one-row non-empty
series; the row scores 2 against thresholds 0, 0. -/
def posFetch : ℚ → ℚ → ℤ → ℤ → List HistRow :=
  fun _ _ _ _ => [⟨"day", 1, 1⟩]

/-- Data source stub that always answers with the empty series. -/
def emptyFetch : ℚ → ℚ → ℤ → ℤ → List HistRow :=
  fun _ _ _ _ => []

/-- Data source stub for the tie-break scenario: the windows starting on
days 3 and 7 score 2 against thresholds 0, 0, every other window scores 3. -/
def tieFetch : ℚ → ℚ → ℤ → ℤ → List HistRow :=
  fun _ _ a _ =>
    if a = 3 ∨ a = 7 then [⟨"day", 1, 1⟩]
    else [⟨"day", 1, 1⟩, ⟨"day2", 1, 0⟩]

/-- Data source stub returning a fixed one-row series (first copy). -/
def fetchA : ℚ → ℚ → ℤ → ℤ → List HistRow :=
  fun _ _ _ _ => [⟨"day", 1, 0⟩]

/-- Data source stub returning a fixed one-row series (second copy, defined
separately from the first but answering identically). -/
def fetchB : ℚ → ℚ → ℤ → ℤ → List HistRow :=
  fun _ _ _ _ => [⟨"day", 1, 0⟩]

/-- C7: for every historical series and thresholds, the risk score equals
the count of records with max_temp strictly greater than the hot threshold
plus the count of records with precipitation strictly greater than the rain
threshold, and is at most twice the series length (so in particular this
holds for every non-empty series). -/
theorem riskScore_spec (df : List HistRow) (hot rain : ℚ) :
    riskScore df hot rain =
      (df.filter (fun r => decide (r.temperature_2m_max > hot))).length +
      (df.filter (fun r => decide (r.precipitation_sum > rain))).length ∧
    riskScore df hot rain ≤ 2 * df.length := by
  constructor
  · simp [riskScore, List.countP_eq_length_filter]
  · have h1 : df.countP (fun r => decide (r.temperature_2m_max > hot)) ≤ df.length :=
      List.countP_le_length _
    have h2 : df.countP (fun r => decide (r.precipitation_sum > rain)) ≤ df.length :=
      List.countP_le_length _
    unfold riskScore
    omega

/-- C2 (evaluation of the code at the failing inputs): `find_best_dates`
performs no input validation. With `event_duration = 0` over the range
`[0, 4]` and an always non-empty source it issues 6 fetches and returns the
degenerate window `(0, -1)`; with `search_start = 5 > search_end = 3` it
still issues the feasibility fetch and returns `none`, indistinguishable
from the not_found outcome. -/
theorem invalid_input_behavior :
    find_best_dates posFetch 0 0 0 4 0 0 0 = some (0, -1) ∧
    (fetchCalls posFetch 0 0 0 4 0).length = 6 ∧
    find_best_dates posFetch 0 0 5 3 0 0 2 = none ∧
    (fetchCalls posFetch 0 0 5 3 2).length = 1 := by
  decide

/-- C1 (counterexample): for a search range spanning exactly 5 inclusive
days (`start = 0`, `end = 4`) and `event_duration = 5`, the specification's
`max_offset` formula gives 1, but the code enumerates 0 candidate offsets
and returns `(None, None)` even though every fetched series is non-empty —
not the single window `(0, 4)` the claim promises. -/
theorem five_day_range_counterexample :
    specMaxOffset 0 4 5 = 1 ∧
    (candidateWindows 0 4 5).length = 0 ∧
    find_best_dates posFetch 0 0 0 4 0 0 5 = none ∧
    find_best_dates posFetch 0 0 0 4 0 0 5 ≠ some (0, 4) := by
  decide

/-- C1 (amended): the number of candidate offsets enumerated equals
`min(total_search_days - event_duration_days, 50)` (clamped at zero) — one
fewer than the specification's formula, because the source measures the
span as `end - start` (exclusive) rather than `end - start + 1`; in
particular, for `event_duration = 5` and a search range spanning exactly 5
inclusive days, zero candidates are evaluated and `(None, None)` is
returned even when the feasibility series is non-empty. -/
theorem candidate_count_eq :
    (∀ s e dur : ℤ,
      (candidateWindows s e dur).length =
        (min (totalSearchDays s e - dur) 50).toNat) ∧
    ∀ (fetch : ℚ → ℚ → ℤ → ℤ → List HistRow) (lat lon : ℚ) (s : ℤ)
      (hot rain : ℚ),
      (fetch lat lon s (clampEnd s (s + 4))).isEmpty = false →
      find_best_dates fetch lat lon s (s + 4) hot rain 5 = none := by
  constructor
  · intro s e dur
    unfold candidateWindows
    rw [List.length_map, List.length_range]
    unfold numCandidates totalSearchDays
    omega
  · intro fetch lat lon s hot rain h
    have hc : clampEnd s (s + 4) = s + 4 := by
      unfold clampEnd
      rw [if_neg (by omega)]
    have hn : numCandidates s (s + 4) 5 = 0 := by
      unfold numCandidates
      omega
    rw [hc] at h
    simp [find_best_dates, searchBody, catchToNone, hc, hn, h]

/-- Witness for the amended C1. -/
theorem candidate_count_eq_witness :
    (candidateWindows 0 4 5).length = (min (totalSearchDays 0 4 - 5) 50).toNat ∧
    find_best_dates posFetch 0 0 0 (0 + 4) 0 0 5 = none :=
  ⟨candidate_count_eq.1 0 4 5,
   candidate_count_eq.2 posFetch 0 0 0 0 0 (by decide)⟩

/-- C4: whenever the input range spans more than 90 days (exclusive
difference), the clamped end is exactly `start + 90`, and every window
requested from the data source — the feasibility window and every candidate
window — lies inside `start .. start + 90`, i.e. at most 91 calendar
days. -/
theorem search_range_clamped :
    ∀ s e : ℤ, e - s > 90 →
      clampEnd s e = s + 90 ∧
      ∀ dur : ℤ, 1 ≤ dur →
        ∀ (fetch : ℚ → ℚ → ℤ → ℤ → List HistRow) (lat lon : ℚ),
          ∀ w ∈ fetchCalls fetch lat lon s e dur,
            s ≤ w.1 ∧ w.1 ≤ w.2 ∧ w.2 ≤ s + 90 := by
  intro s e h
  have hc : clampEnd s e = s + 90 := by
    unfold clampEnd
    rw [if_pos h]
  refine ⟨hc, ?_⟩
  intro dur hdur fetch lat lon w hw
  simp only [fetchCalls, hc] at hw
  by_cases hemp : (fetch lat lon s (s + 90)).isEmpty
  · simp [hemp] at hw
    subst hw
    refine ⟨le_rfl, by omega, le_rfl⟩
  · simp [hemp, candidateWindows, List.mem_map, List.mem_range, hc] at hw
    rcases hw with hw | ⟨off, hoff, hw⟩
    · subst hw
      refine ⟨le_rfl, by omega, le_rfl⟩
    · subst hw
      have hoff2 : (off : ℤ) < min (s + 90 - s - dur + 1) 50 := by
        unfold numCandidates at hoff
        omega
      refine ⟨by omega, by omega, by omega⟩

/-- Witness for C4 at a 200-day range: the clamp fires and the concrete
candidate window `(49, 53)` (the last one for a 5-day event) stays inside
`start .. start + 90`. -/
theorem search_range_clamped_witness :
    clampEnd 0 200 = 0 + 90 ∧
    (0 ≤ (49 : ℤ) ∧ (49 : ℤ) ≤ (53 : ℤ) ∧ (53 : ℤ) ≤ 0 + 90) :=
  ⟨(search_range_clamped 0 200 (by decide)).1,
   (search_range_clamped 0 200 (by decide)).2 5 (by decide) posFetch 0 0
     (49, 53) (by decide)⟩

/-- C5: every call of `find_best_dates` requests at most 51 windows from
the data source (one feasibility fetch plus at most 50 candidate fetches);
with `event_duration = 1` and a 200-day range whose feasibility series is
non-empty, exactly 51 requests are made, so the 50-candidate cap binds. -/
theorem fetch_call_cap :
    (∀ (fetch : ℚ → ℚ → ℤ → ℤ → List HistRow) (lat lon : ℚ) (s e dur : ℤ),
      (fetchCalls fetch lat lon s e dur).length ≤ 51) ∧
    ∀ (fetch : ℚ → ℚ → ℤ → ℤ → List HistRow) (lat lon : ℚ) (s : ℤ),
      (fetch lat lon s (clampEnd s (s + 200))).isEmpty = false →
      (fetchCalls fetch lat lon s (s + 200) 1).length = 51 := by
  constructor
  · intro fetch lat lon s e dur
    have hl : (candidateWindows s e dur).length =
        numCandidates s (clampEnd s e) dur := by
      unfold candidateWindows
      rw [List.length_map, List.length_range]
    unfold fetchCalls
    by_cases hemp : (fetch lat lon s (clampEnd s e)).isEmpty
    · simp [hemp]
    · simp only [hemp, Bool.false_eq_true, if_false, List.length_cons, hl]
      unfold numCandidates
      omega
  · intro fetch lat lon s h
    have hc : clampEnd s (s + 200) = s + 90 := by
      unfold clampEnd
      rw [if_pos (by omega)]
    have hl : (candidateWindows s (s + 200) 1).length =
        numCandidates s (s + 90) 1 := by
      unfold candidateWindows
      rw [List.length_map, List.length_range, hc]
    have hn : numCandidates s (s + 90) 1 = 50 := by
      unfold numCandidates
      omega
    rw [hc] at h
    unfold fetchCalls
    simp only [hc, h, Bool.false_eq_true, if_false, List.length_cons, hl, hn]

/-- Witness for C5. -/
theorem fetch_call_cap_witness :
    (fetchCalls posFetch 0 0 0 (0 + 200) 1).length = 51 :=
  fetch_call_cap.2 posFetch 0 0 0 (by decide)

/-- C6: if the feasibility fetch over the full (clamped) range is empty,
`find_best_dates` returns `(None, None)` immediately and the only window
ever requested is the feasibility window (one data-source call in total);
an empty series for an individual candidate leaves the loop state
unchanged (it is skipped, not scored as 0), and the loop still visits every
candidate — when the feasibility series is non-empty, one fetch is issued
per enumerated candidate regardless of which candidates are empty. -/
theorem empty_series_handling :
    (∀ (fetch : ℚ → ℚ → ℤ → ℤ → List HistRow) (lat lon : ℚ) (s e : ℤ)
        (hot rain : ℚ) (dur : ℤ),
      (fetch lat lon s (clampEnd s e)).isEmpty = true →
      find_best_dates fetch lat lon s e hot rain dur = none ∧
      fetchCalls fetch lat lon s e dur = [(s, clampEnd s e)]) ∧
    (∀ (fetch : ℚ → ℚ → ℤ → ℤ → List HistRow) (lat lon : ℚ) (s : ℤ)
        (hot rain : ℚ) (dur : ℤ) (st : Option ℕ × Option ℤ) (off : ℕ),
      (candSeries fetch lat lon s dur off).isEmpty = true →
      stepCandidate fetch lat lon s hot rain dur st off = st) ∧
    ∀ (fetch : ℚ → ℚ → ℤ → ℤ → List HistRow) (lat lon : ℚ) (s e dur : ℤ),
      (fetch lat lon s (clampEnd s e)).isEmpty = false →
      (fetchCalls fetch lat lon s e dur).length =
        1 + (candidateWindows s e dur).length := by
  refine ⟨?_, ?_, ?_⟩
  · intro fetch lat lon s e hot rain dur h
    constructor
    · simp [find_best_dates, searchBody, catchToNone, h]
    · simp [fetchCalls, h]
  · intro fetch lat lon s hot rain dur st off h
    simp [stepCandidate, h]
  · intro fetch lat lon s e dur h
    simp [fetchCalls, h]
    omega

/-- Witness for C6. -/
theorem empty_series_handling_witness :
    (find_best_dates emptyFetch 0 0 0 4 0 0 1 = none ∧
      fetchCalls emptyFetch 0 0 0 4 1 = [(0, clampEnd 0 4)]) ∧
    stepCandidate emptyFetch 0 0 0 0 0 1 (some 2, some 0) 0 = (some 2, some 0) ∧
    (fetchCalls posFetch 0 0 0 4 1).length = 1 + (candidateWindows 0 4 1).length :=
  ⟨empty_series_handling.1 emptyFetch 0 0 0 4 0 0 1 (by decide),
   empty_series_handling.2.1 emptyFetch 0 0 0 0 0 1 (some 2, some 0) 0 (by decide),
   empty_series_handling.2.2 posFetch 0 0 0 4 1 (by decide)⟩

/-- C9: `find_best_dates` is deterministic — its outcome is a function of
its arguments and of the series the data source returns for each requested
window; two sources that answer every query identically yield identical
outcomes. -/
theorem find_best_dates_deterministic
    (f g : ℚ → ℚ → ℤ → ℤ → List HistRow)
    (h : ∀ lat lon a b, f lat lon a b = g lat lon a b)
    (lat lon : ℚ) (s e : ℤ) (hot rain : ℚ) (dur : ℤ) :
    find_best_dates f lat lon s e hot rain dur =
      find_best_dates g lat lon s e hot rain dur := by
  have hfg : f = g :=
    funext fun la => funext fun lo => funext fun a => funext fun b => h la lo a b
  rw [hfg]

/-- Witness for C9: two separately defined but extensionally identical
sources give the same outcome. -/
theorem find_best_dates_deterministic_witness :
    find_best_dates fetchA 0 0 0 4 0 0 1 = find_best_dates fetchB 0 0 0 4 0 0 1 :=
  find_best_dates_deterministic fetchA fetchB (fun _ _ _ _ => rfl) 0 0 0 4 0 0 1

/-- C10: `find_best_dates` is total at its interface: the error branch of
its `try ... except` wrapper yields the `(None, None)` outcome, and for
every input and every data source the result is either `none` (the
`(None, None)` pair) or `some (best_start, best_start + (event_duration -
1))`. -/
theorem find_best_dates_total :
    (∀ msg : String, catchToNone (Except.error msg) = none) ∧
    ∀ (fetch : ℚ → ℚ → ℤ → ℤ → List HistRow) (lat lon : ℚ) (s e : ℤ)
      (hot rain : ℚ) (dur : ℤ),
      find_best_dates fetch lat lon s e hot rain dur = none ∨
      ∃ bs : ℤ, find_best_dates fetch lat lon s e hot rain dur =
        some (bs, bs + (dur - 1)) := by
  refine ⟨fun _ => rfl, ?_⟩
  intro fetch lat lon s e hot rain dur
  unfold find_best_dates catchToNone searchBody
  by_cases h : (fetch lat lon s (clampEnd s e)).isEmpty
  · simp [h]
  · simp only [h, Bool.false_eq_true, if_false]
    rcases hst : ((List.range (numCandidates s (clampEnd s e) dur)).foldl
        (stepCandidate fetch lat lon s hot rain dur) (none, none)).2 with _ | bs
    · simp [hst]
    · exact Or.inr ⟨bs, by simp [hst]⟩

section FoldLemmas

variable (fetch : ℚ → ℚ → ℤ → ℤ → List HistRow) (lat lon : ℚ) (s : ℤ)
variable (hot rain : ℚ) (dur : ℤ)

/-- Helper: an iteration whose candidate series is empty leaves the loop
state unchanged. -/
theorem step_skip_empty (st : Option ℕ × Option ℤ) (off : ℕ)
    (h : (candSeries fetch lat lon s dur off).isEmpty = true) :
    stepCandidate fetch lat lon s hot rain dur st off = st := by
  simp [stepCandidate, h]

/-- Helper: an iteration whose candidate is empty or scores no better than
the current best leaves the state unchanged. -/
theorem step_keep (off : ℕ) (m : ℕ) (b : Option ℤ)
    (h : (candSeries fetch lat lon s dur off).isEmpty = false →
      m ≤ candScore fetch lat lon s hot rain dur off) :
    stepCandidate fetch lat lon s hot rain dur (some m, b) off = (some m, b) := by
  by_cases he : (candSeries fetch lat lon s dur off).isEmpty
  · simp [stepCandidate, he]
  · have hb : (candSeries fetch lat lon s dur off).isEmpty = false := by
      simpa using he
    have hm := h hb
    unfold candScore at hm
    simp [stepCandidate, hb, Nat.not_lt.mpr hm]

/-- Helper: a non-empty candidate strictly beating the current best score
replaces the state. -/
theorem step_some_lt (off : ℕ) (t : ℕ) (b : Option ℤ)
    (hb : (candSeries fetch lat lon s dur off).isEmpty = false)
    (hlt : candScore fetch lat lon s hot rain dur off < t) :
    stepCandidate fetch lat lon s hot rain dur (some t, b) off =
      (some (candScore fetch lat lon s hot rain dur off), some (s + (off : ℤ))) := by
  unfold candScore at hlt ⊢
  simp [stepCandidate, hb, hlt]

/-- Helper: a non-empty candidate always replaces the initial infinite best
score. -/
theorem step_none_update (off : ℕ) (b : Option ℤ)
    (hb : (candSeries fetch lat lon s dur off).isEmpty = false) :
    stepCandidate fetch lat lon s hot rain dur (none, b) off =
      (some (candScore fetch lat lon s hot rain dur off), some (s + (off : ℤ))) := by
  unfold candScore
  simp [stepCandidate, hb]

/-- Helper: folding over offsets none of which strictly beats the score `m`
keeps the state `(some m, b)`. -/
theorem foldl_keep (l : List ℕ) (m : ℕ) (b : Option ℤ)
    (h : ∀ off ∈ l, (candSeries fetch lat lon s dur off).isEmpty = false →
      m ≤ candScore fetch lat lon s hot rain dur off) :
    l.foldl (stepCandidate fetch lat lon s hot rain dur) (some m, b) = (some m, b) := by
  induction l with
  | nil => rfl
  | cons a l ih =>
    rw [List.foldl_cons,
      step_keep fetch lat lon s hot rain dur a m b (h a (List.mem_cons_self a l))]
    exact ih (fun off ho hb => h off (List.mem_cons_of_mem a ho) hb)

/-- Helper: folding from a best score above `m`, over offsets all scoring
above `m`, ends in a recorded best score still above `m`. -/
theorem foldl_gt (m : ℕ) (l : List ℕ) :
    ∀ (t : ℕ) (b : ℤ),
      (∀ off ∈ l, (candSeries fetch lat lon s dur off).isEmpty = false →
        m < candScore fetch lat lon s hot rain dur off) →
      m < t →
      ∃ t2 b2,
        l.foldl (stepCandidate fetch lat lon s hot rain dur) (some t, some b)
          = (some t2, some b2) ∧ m < t2 := by
  induction l with
  | nil => exact fun t b _ ht => ⟨t, b, rfl, ht⟩
  | cons a l ih =>
    intro t b h ht
    rw [List.foldl_cons]
    by_cases he : (candSeries fetch lat lon s dur a).isEmpty
    · rw [step_skip_empty fetch lat lon s hot rain dur (some t, some b) a he]
      exact ih t b (fun off ho hb => h off (List.mem_cons_of_mem a ho) hb) ht
    · have hb : (candSeries fetch lat lon s dur a).isEmpty = false := by simpa using he
      have hma := h a (List.mem_cons_self a l) hb
      by_cases hlt : candScore fetch lat lon s hot rain dur a < t
      · rw [step_some_lt fetch lat lon s hot rain dur a t (some b) hb hlt]
        exact ih (candScore fetch lat lon s hot rain dur a) (s + (a : ℤ))
          (fun off ho hob => h off (List.mem_cons_of_mem a ho) hob) hma
      · rw [step_keep fetch lat lon s hot rain dur a t (some b)
          (fun _ => Nat.not_lt.mp hlt)]
        exact ih t b (fun off ho hob => h off (List.mem_cons_of_mem a ho) hob) ht

/-- Helper: folding from the initial state over offsets all scoring above
`m` ends either still unset or with a recorded best score above `m`. -/
theorem foldl_from_none (m : ℕ) (l : List ℕ) :
    (∀ off ∈ l, (candSeries fetch lat lon s dur off).isEmpty = false →
      m < candScore fetch lat lon s hot rain dur off) →
    l.foldl (stepCandidate fetch lat lon s hot rain dur) (none, none) = (none, none) ∨
    ∃ t b,
      l.foldl (stepCandidate fetch lat lon s hot rain dur) (none, none)
        = (some t, some b) ∧ m < t := by
  induction l with
  | nil => exact fun _ => Or.inl rfl
  | cons a l ih =>
    intro h
    rw [List.foldl_cons]
    by_cases he : (candSeries fetch lat lon s dur a).isEmpty
    · rw [step_skip_empty fetch lat lon s hot rain dur (none, none) a he]
      exact ih (fun off ho hb => h off (List.mem_cons_of_mem a ho) hb)
    · have hb : (candSeries fetch lat lon s dur a).isEmpty = false := by simpa using he
      have hma := h a (List.mem_cons_self a l) hb
      rw [step_none_update fetch lat lon s hot rain dur a none hb]
      rcases foldl_gt fetch lat lon s hot rain dur m l
          (candScore fetch lat lon s hot rain dur a) (s + (a : ℤ))
          (fun off ho hob => h off (List.mem_cons_of_mem a ho) hob) hma with
        ⟨t2, b2, heq, ht2⟩
      exact Or.inr ⟨t2, b2, heq, ht2⟩

/-- Helper: processing offsets `0, ..., n-1` in loop order, when offset `i`
is non-empty with score `m`, every earlier non-empty offset scores strictly
above `m` and no offset scores below `m`, ends exactly in state
`(some m, some (s + i))`. -/
theorem foldl_range_first (m i : ℕ)
    (hne : (candSeries fetch lat lon s dur i).isEmpty = false)
    (hsc : candScore fetch lat lon s hot rain dur i = m)
    (hbef : ∀ j, j < i → (candSeries fetch lat lon s dur j).isEmpty = false →
      m < candScore fetch lat lon s hot rain dur j) :
    ∀ n, i < n →
      (∀ j, j < n → (candSeries fetch lat lon s dur j).isEmpty = false →
        m ≤ candScore fetch lat lon s hot rain dur j) →
      (List.range n).foldl (stepCandidate fetch lat lon s hot rain dur) (none, none)
        = (some m, some (s + (i : ℤ))) := by
  intro n
  induction n with
  | zero => intro hi _; exact absurd hi (Nat.not_lt_zero i)
  | succ n ih =>
    intro hi hall
    rw [List.range_succ, List.foldl_append, List.foldl_cons, List.foldl_nil]
    rcases Nat.lt_succ_iff_lt_or_eq.mp hi with hlt | heq
    · rw [ih hlt (fun j hj => hall j (Nat.lt_succ_of_lt hj))]
      exact step_keep fetch lat lon s hot rain dur n m (some (s + (i : ℤ)))
        (fun hb => hall n (Nat.lt_succ_self n) hb)
    · subst heq
      rcases foldl_from_none fetch lat lon s hot rain dur m (List.range i)
          (fun off ho hb => hbef off (List.mem_range.mp ho) hb) with h0 | ⟨t, b, heq2, ht⟩
      · rw [h0, step_none_update fetch lat lon s hot rain dur i none hne, hsc]
      · rw [heq2, step_some_lt fetch lat lon s hot rain dur i t (some b) hne
          (by rw [hsc]; exact ht), hsc]

end FoldLemmas

/-- C3: the best candidate is replaced only on a strictly smaller score, so
`find_best_dates` returns the window of the lowest offset attaining the
minimal score: if offset `i` is enumerated, its series is non-empty with
score `m`, every earlier non-empty candidate scores strictly above `m` and
no enumerated non-empty candidate scores below `m`, then the returned
window starts at `search_start + i`. -/
theorem tie_break_first_min
    (fetch : ℚ → ℚ → ℤ → ℤ → List HistRow) (lat lon : ℚ) (s e : ℤ)
    (hot rain : ℚ) (dur : ℤ) (m i : ℕ)
    (hfeas : (fetch lat lon s (clampEnd s e)).isEmpty = false)
    (hi : i < numCandidates s (clampEnd s e) dur)
    (hne : (candSeries fetch lat lon s dur i).isEmpty = false)
    (hsc : candScore fetch lat lon s hot rain dur i = m)
    (hbef : ∀ j, j < i → (candSeries fetch lat lon s dur j).isEmpty = false →
      m < candScore fetch lat lon s hot rain dur j)
    (hall : ∀ j, j < numCandidates s (clampEnd s e) dur →
      (candSeries fetch lat lon s dur j).isEmpty = false →
      m ≤ candScore fetch lat lon s hot rain dur j) :
    find_best_dates fetch lat lon s e hot rain dur =
      some (s + (i : ℤ), s + (i : ℤ) + (dur - 1)) := by
  have hfold := foldl_range_first fetch lat lon s hot rain dur m i hne hsc hbef
    (numCandidates s (clampEnd s e) dur) hi hall
  simp only [find_best_dates, searchBody, catchToNone, hfeas, Bool.false_eq_true,
    if_false]
  rw [hfold]

/-- Witness for C3 (the specification's Scenario D shape): candidates at
offsets 3 and 7 both score 2, every other candidate scores 3, and the
window at offset 3 is returned. -/
theorem tie_break_first_min_witness :
    find_best_dates tieFetch 0 0 0 10 0 0 1 = some (3, 3) := by
  have h := tie_break_first_min tieFetch 0 0 0 10 0 0 1 2 3 (by decide) (by decide)
    (by decide) (by decide) (by decide) (by decide)
  simpa using h

/-- C8: the historical fetch drops every record whose temperature channel
holds the sentinel `-999`; a record with a valid temperature whose
precipitation value is absent or is the sentinel is kept with precipitation
`0`; and a failed transport or parse yields the empty series rather than an
exception. Every returned record carries a non-sentinel temperature taken
from the temperature channel and a non-sentinel precipitation. -/
theorem historical_filter_spec :
    get_historical_data_for_event none = [] ∧
    (∀ (t p : List (String × ℚ)) (r : HistRow),
      r ∈ get_historical_data_for_event (some (t, p)) →
      r.temperature_2m_max ≠ -999 ∧ r.precipitation_sum ≠ -999 ∧
      (r.date, r.temperature_2m_max) ∈ t) ∧
    ∀ (t p : List (String × ℚ)) (d : String) (temp : ℚ),
      (d, temp) ∈ t → temp ≠ -999 →
      (List.lookup d p = none ∨ List.lookup d p = some (-999)) →
      (⟨d, temp, 0⟩ : HistRow) ∈ get_historical_data_for_event (some (t, p)) := by
  refine ⟨rfl, ?_, ?_⟩
  · intro t p r hr
    simp only [get_historical_data_for_event, buildSeries] at hr
    rcases List.mem_map.mp hr with ⟨q, hq, hqr⟩
    rcases List.mem_filter.mp hq with ⟨hqt, hq2⟩
    have hq3 : q.2 ≠ -999 := by simpa using hq2
    subst hqr
    refine ⟨hq3, ?_, ?_⟩
    · show (if (List.lookup q.1 p).getD 0 = -999 then (0 : ℚ)
        else (List.lookup q.1 p).getD 0) ≠ -999
      by_cases hp : (List.lookup q.1 p).getD 0 = -999
      · rw [if_pos hp]
        norm_num
      · rw [if_neg hp]
        exact hp
    · simpa using hqt
  · intro t p d temp hmem hne hlk
    simp only [get_historical_data_for_event, buildSeries]
    refine List.mem_map.mpr ⟨(d, temp),
      List.mem_filter.mpr ⟨hmem, by simpa using hne⟩, ?_⟩
    rcases hlk with h | h
    · simp [h]
    · simp [h]

/-- Witness for C8: on the concrete response whose temperature channel is
`[("a", -999), ("b", 20)]` and whose precipitation channel is
`[("b", -999)]`, the record for "a" is dropped, and the record for "b" is
kept with precipitation 0. -/
theorem historical_filter_spec_witness :
    get_historical_data_for_event none = [] ∧
    ((20 : ℚ) ≠ -999 ∧ (0 : ℚ) ≠ -999 ∧
      ("b", (20 : ℚ)) ∈ [("a", (-999 : ℚ)), ("b", (20 : ℚ))]) ∧
    (⟨"b", 20, 0⟩ : HistRow) ∈
      get_historical_data_for_event
        (some ([("a", (-999 : ℚ)), ("b", (20 : ℚ))], [("b", (-999 : ℚ))])) :=
  ⟨historical_filter_spec.1,
   historical_filter_spec.2.1 [("a", (-999 : ℚ)), ("b", (20 : ℚ))]
     [("b", (-999 : ℚ))] ⟨"b", 20, 0⟩ (by decide),
   historical_filter_spec.2.2 [("a", (-999 : ℚ)), ("b", (20 : ℚ))]
     [("b", (-999 : ℚ))] "b" 20 (by decide) (by decide) (Or.inr (by decide))⟩
